import Mathlib

/-!
Verification development for the MycoCosm genome downloader
(mycocosm_genome_downloader.py).

We give a shallow embedding of the decision logic of the downloader:

* the timestamp normalization tables and the conversion of the US-locale
  timestamp strings into comparable instants (function annotate_gff,
  lines 783-842 of the source);
* the lineage classifier get_final_output_folder (lines 333-374) together
  with the 28-element branch marker set jgi_tree_branches (lines 301-330);
* the assembly resolver annotate_assembly (lines 645-703);
* the annotation (gff) resolver annotate_gff (lines 770-909).

Python strings are modelled through their character lists (String.data in
Lean), so that the slicing and substring operations of the source translate
to List.drop / sublist scans.  Machine-level integers do not occur in the
decision logic; timestamps become Int instants (seconds since the Unix
epoch), byte sizes become Nat.  Python exceptions (KeyError / ValueError on
timestamp parsing, the exit() call on portal Altbr1, KeyError on an unknown
portal) are modelled with Except.
-/

namespace MycoDL

deriving instance DecidableEq for Except

/-! ## String helpers

The Python source slices strings by character, so we model the operations
on the character list of the string. -/

/-- Python `s[-n:]`: the last `n` characters of `s` (all of `s` when it is
shorter than `n`). -/
def lastN (s : String) (n : Nat) : String :=
  ⟨s.data.drop (s.data.length - n)⟩

/-- Occurrence of `pat` as a contiguous sublist of `l` (Python `pat in s`). -/
def containsSub (pat : List Char) : List Char → Bool
  | [] => pat.isEmpty
  | a :: as => pat.isPrefixOf (a :: as) || containsSub pat as

/-- Python `pat in s` for strings. -/
def strContains (s pat : String) : Bool :=
  containsSub pat.data s.data

/-- Python `s.lower()` (the filenames involved are ASCII). -/
def strToLower (s : String) : String :=
  ⟨s.data.map Char.toLower⟩

/-- Python `s.upper()` (the rank names involved are ASCII). -/
def strToUpper (s : String) : String :=
  ⟨s.data.map Char.toUpper⟩

/-- Python `s.split(sep)` for a one-character separator: split keeping empty
groups (so consecutive separators produce empty strings, as in Python). -/
def splitOnChar (c : Char) : List Char → List (List Char)
  | [] => [[]]
  | x :: xs =>
    let r := splitOnChar c xs
    if x == c then [] :: r
    else
      match r with
      | g :: gs => (x :: g) :: gs
      | [] => [[x]]

/-- Python `url.split("/")[2]`, the portal segment of a download url.  The
source would raise IndexError on a url with fewer than three slash-separated
segments; all urls handled here have the shape /portal/NAME/download/...,
and we return the empty string in the out-of-range case. -/
def portalOf (url : String) : String :=
  ⟨(splitOnChar '/' url.data).getD 2 []⟩

/-- Python dictionary lookup `tbl[k]` on a literal dict, as association-list
lookup; `none` models the KeyError. -/
def dictGet (tbl : List (String × String)) (k : String) : Option String :=
  (tbl.find? (fun p => p.1 == k)).map (·.2)

/-! ## Timestamp normalization tables (annotate_gff, lines 783-816) -/

/-- Source table UStimezones: the eight US timezone abbreviations with
their UTC offsets. -/
def UStimezones : List (String × String) :=
  [("EST", "-0500"), ("CST", "-0600"), ("MST", "-0700"), ("PST", "-0800"),
   ("EDT", "-0400"), ("CDT", "-0500"), ("MDT", "-0600"), ("PDT", "-0700")]

/-- Source table USdaynums: weekday names to the digits 0-6. -/
def USdaynums : List (String × String) :=
  [("Sun", "0"), ("Mon", "1"), ("Tue", "2"), ("Wed", "3"), ("Thu", "4"),
   ("Fri", "5"), ("Sat", "6")]

/-- Source table USmonthnums: month names to the two-digit month numbers. -/
def USmonthnums : List (String × String) :=
  [("Jan", "01"), ("Feb", "02"), ("Mar", "03"), ("Apr", "04"), ("May", "05"),
   ("Jun", "06"), ("Jul", "07"), ("Aug", "08"), ("Sep", "09"), ("Oct", "10"),
   ("Nov", "11"), ("Dec", "12")]

/-! ## Timestamp parsing (annotate_gff, lines 830-842)

The source rebuilds the timestamp string through the three tables and then
parses it with datetime.strptime using the format "%w %m %d %H:%M:%S %z %Y".
We model the resulting timezone-aware datetime by its instant: seconds since
the Unix epoch as an Int.  Comparisons of aware datetimes in Python agree
with comparisons of these instants. -/

/-- Errors raised by the timestamp conversion: ValueError from unpacking the
split into six names, KeyError from each of the three table lookups (in the
evaluation order of the source), and ValueError from strptime. -/
inductive TSErr where
  | valueErrorUnpack
  | keyErrorWeekday
  | keyErrorMonth
  | keyErrorTimezone
  | valueErrorStrptime
deriving DecidableEq

/-- Value of a nonempty all-digit character list (the numeric fields that
the strptime format accepts). -/
def digitsVal? (l : List Char) : Option Nat :=
  if l.isEmpty then none
  else
    l.foldl
      (fun acc c =>
        acc.bind fun n => if c.isDigit then some (n * 10 + (c.toNat - 48)) else none)
      (some 0)

/-- Parse a strptime %z offset of the shape sign + HHMM into seconds. -/
def parseOffset (off : String) : Option Int :=
  match off.data with
  | [] => none
  | c :: rest =>
    if rest.length == 4 then
      match digitsVal? (rest.take 2), digitsVal? (rest.drop 2) with
      | some hh, some mm =>
        if hh ≤ 23 && mm ≤ 59 then
          if c == '-' then some (-((hh * 3600 + mm * 60 : Nat) : Int))
          else if c == '+' then some ((hh * 3600 + mm * 60 : Nat) : Int)
          else none
        else none
      | _, _ => none
    else none

/-- Days from 1970-01-01 to the civil date y-m-d (valid for y ≥ 1,
1 ≤ m ≤ 12), by the standard civil-from-days algorithm. -/
def daysSinceEpoch (y m d : Nat) : Int :=
  let yy := if m ≤ 2 then y - 1 else y
  let era := yy / 400
  let yoe := yy % 400
  let mp := (m + 9) % 12
  let doy := (153 * mp + 2) / 5 + d - 1
  let doe := yoe * 365 + yoe / 4 - yoe / 100 + doy
  ((era * 146097 + doe : Nat) : Int) - 719468

/-- Source lines 832-841: rebuild the timestamp string, replacing weekday
name, month name and timezone abbreviation through the three tables.  The
errors are, in evaluation order: ValueError if the split does not give
exactly six fields, then KeyError for the weekday, month and timezone
lookups. -/
def normalizeTimestamp (ts : String) : Except TSErr String :=
  match splitOnChar ' ' ts.data with
  | [wday, month, day, hms, tz, y] =>
    match dictGet USdaynums ⟨wday⟩ with
    | none => .error .keyErrorWeekday
    | some wd =>
      match dictGet USmonthnums ⟨month⟩ with
      | none => .error .keyErrorMonth
      | some mo =>
        match dictGet UStimezones ⟨tz⟩ with
        | none => .error .keyErrorTimezone
        | some off =>
          .ok ⟨wd.data ++ ' ' :: mo.data ++ ' ' :: day ++ ' ' :: hms ++
               ' ' :: off.data ++ ' ' :: y⟩
  | _ => .error .valueErrorUnpack

/-- datetime.strptime with format "%w %m %d %H:%M:%S %z %Y", returning the
instant (seconds since epoch).  The weekday field is parsed but, as in
Python, does not contribute to the instant.  Range checks model the
validation of strptime / the datetime constructor. -/
def strptimeInstant (s : String) : Option Int :=
  match splitOnChar ' ' s.data with
  | [w, mo, d, hms, z, y] =>
    match digitsVal? w, digitsVal? mo, digitsVal? d, digitsVal? y,
          splitOnChar ':' hms with
    | some wv, some mv, some dv, some yv, [hh, mm, ss] =>
      match digitsVal? hh, digitsVal? mm, digitsVal? ss, parseOffset ⟨z⟩ with
      | some h, some mi, some sec, some off =>
        if wv ≤ 6 ∧ 1 ≤ mv ∧ mv ≤ 12 ∧ 1 ≤ dv ∧ dv ≤ 31 ∧ h ≤ 23 ∧
           mi ≤ 59 ∧ sec ≤ 59 ∧ 1 ≤ yv ∧ yv ≤ 9999 then
          some (daysSinceEpoch yv mv dv * 86400 +
                ((h * 3600 + mi * 60 + sec : Nat) : Int) - off)
        else none
      | _, _, _, _ => none
    | _, _, _, _, _ => none
  | _ => none

/-- The full timestamp conversion of the source (lines 832-842): normalize
through the tables, then parse with strptime.  The result is the instant of
the aware datetime object. -/
def parseTimestamp (ts : String) : Except TSErr Int :=
  match normalizeTimestamp ts with
  | .error e => .error e
  | .ok ns =>
    match strptimeInstant ns with
    | none => .error .valueErrorStrptime
    | some t => .ok t

/-! ## Lineage classifier (get_final_output_folder, lines 333-374)

A lineage is modelled as a finite set of lowercase rank names (the source
builds a Python set from the name list); a path is modelled as the list of
its segments, the base folder being the list of base segments. -/

/-- Source set jgi_tree_branches (lines 301-330): the main branches of the
JGI tree, 28 markers. -/
def jgiTreeBranches : Finset String :=
  {"pucciniomycotina", "ustilaginomycotina", "agaricomycetes", "dacrymycetes",
   "tremellomycetes", "wallemiomycetes", "pezizomycetes", "orbiliomycetes",
   "eurotiomycetes", "dothideomycetes", "lecanoromycetes", "leotiomycetes",
   "sordariomycetes", "xylonomycetes", "saccharomycotina", "taphrinomycotina",
   "glomeromycotina", "mortierellomycotina", "mucoromycotina",
   "zoopagomycotina", "entomophthoromycotina", "kickxellomycotina",
   "blastocladiomycota", "chytridiomycetes", "monoblepharidomycetes",
   "neocallimastigomycota", "microsporidia", "cryptomycota"}

/-- Source function get_final_output_folder (lines 333-374).  The final
leaf: when the intersection of the lineage with jgiTreeBranches is a
singleton the source appends list(intersection)[0].upper(); for a singleton
set the iteration yields its unique element, which we extract through the
sorted list of the Finset. -/
def get_final_output_folder (o : List String) (lineage_set : Finset String) :
    List String :=
  let output_folder := o
  let output_folder :=
    if "dikarya" ∈ lineage_set then
      let output_folder := output_folder ++ ["DIKARYA"]
      if "ascomycota" ∈ lineage_set then
        let output_folder := output_folder ++ ["ASCOMYCOTA"]
        if "pezizomycotina" ∈ lineage_set then
          output_folder ++ ["PEZIZOMYCOTINA"]
        else output_folder
      else if "basidiomycota" ∈ lineage_set then
        let output_folder := output_folder ++ ["BASIDIOMYCOTA"]
        if "agaricomycotina" ∈ lineage_set then
          output_folder ++ ["AGARICOMYCOTINA"]
        else output_folder
      else output_folder
    else
      let output_folder := output_folder ++ ["no_rank"]
      let output_folder :=
        if "mucoromycota" ∈ lineage_set then output_folder ++ ["MUCOROMYCOTA"]
        else output_folder
      let output_folder :=
        if "zoopagomycota" ∈ lineage_set then output_folder ++ ["ZOOPAGOMYCOTA"]
        else output_folder
      if "chytridiomycota" ∈ lineage_set then
        output_folder ++ ["CHYTRIDIOMYCOTA", "no_rank"]
      else output_folder
  if (lineage_set ∩ jgiTreeBranches).card = 1 then
    output_folder ++
      [strToUpper (((lineage_set ∩ jgiTreeBranches).sort (· ≤ ·)).headD "")]
  else output_folder ++ ["no_rank"]

/-! ## Static exclusion tables -/

/-- Source set portals_to_remove (lines 386-391): metaprojects or old
versions that are dropped everywhere. -/
def portalsToRemove : List String :=
  ["Rhoto_IFO0880_2", "Aciri1_meta", "Pospl1"]

/-- Source set exclude_assemblies (lines 536-549). -/
def excludeAssemblies : List String :=
  ["1034997.Tuber_borchii_Tbo3840.standard.main.scaffolds.fasta.gz",
   "Spofi1.draft.mito.scaffolds.fasta.gz",
   "Patat1.draft.mito.scaffolds.fasta.gz",
   "PleosPC9_1_Assembly_scaffolds.fasta.gz",
   "Neuhi1_PlasmidAssemblyScaffolds.fasta.gz",
   "CocheC5_1_assembly_scaffolds.fasta.gz",
   "Alternaria_brassicicola_masked_assembly.fasta.gz",
   "Aciri1_meta_AssemblyScaffolds.fasta.gz",
   "Rhoto_IFO0880_2_AssemblyScaffolds.fasta.gz",
   "StenotrophomonasSp_AssemblyScaffolds.fasta.gz",
   "PseudomonasSp_AssemblyScaffolds.fasta.gz",
   "EurotioJF034F_1_RiboAssemblyScaffolds.fasta.gz"]

/-- Source set ignore_gff_filenames (lines 744-750): files carrying the
GeneCatalog magic string that are nevertheless unwanted. -/
def ignoreGffFilenames : List String :=
  ["Aciri1_meta_GeneCatalog_genes_20111216.gff.gz",
   "Exoaq1_GeneCatalog_20160901.gff3.gz",
   "Exoaq1_GeneCatalog_20160828.gff3.gz",
   "Fonpe1_GeneCatalog_20160901.gff3.gz",
   "Copmic2_FM1_removed_alleles.gff.gz"]

/-! ## Assembly resolver (annotate_assembly, lines 645-703)

We model the resolution for one organism record: the record of the portal
thePortal.  Each xml element contributes a candidate (filename, url, parsed
sizeInBytes).  The source indexes a dict of records through the portal
segment of each url; candidates whose portal is not the modelled one leave
the record unchanged (the source prints a warning when the portal is not in
the csv dict; we record such portals in portalWarnings).  The exit() call
on portal Altbr1 (lines 669-671) terminates the process and is modelled
with Except.error. -/

/-- One candidate element from the Assembly xml node. -/
structure AsmCand where
  filename : String
  url : String
  sizeInBytes : Nat
deriving DecidableEq

/-- The assembly fields of a JGI_Project record. -/
structure AsmDesc where
  assembly_file : String
  assembly_url : String
  assembly_size : Nat
deriving DecidableEq

/-- Process termination through exit() (source line 671). -/
inductive AsmExit where
  | exit
deriving DecidableEq

/-- State of the assembly resolution pass: the (last assigned) assembly
descriptor of the modelled record, the duplicated_names list, and the
portals for which the source would print the missing-portal warning. -/
structure AsmState where
  selected : Option AsmDesc
  duplicated : List String
  portalWarnings : List String
deriving DecidableEq

/-- The exclusion rules of annotate_assembly (lines 673-681): substring
exclusions, the static excluded-filename set, the removed-portal set and
the txt suffix. -/
def asmExcluded (c : AsmCand) : Bool :=
  strContains c.filename "MitoAssembly" ||
  strContains c.filename "MitoScaffolds" ||
  strContains c.filename "PrimaryAssemblyScaffolds" ||
  strContains c.filename "SecondaryAssemblyScaffolds" ||
  excludeAssemblies.contains c.filename ||
  portalsToRemove.contains (portalOf c.url) ||
  lastN c.filename 3 = "txt"

/-- The assembly descriptor written into the record by a surviving
candidate. -/
def mkAsmDesc (c : AsmCand) : AsmDesc :=
  ⟨c.filename, c.url, c.sizeInBytes⟩

/-- One iteration of the loop of annotate_assembly (lines 663-693) for the
record of thePortal: the Altbr1 exit comes first, then the exclusion rules,
then the (overwriting) assignment into the record and the append to
duplicated_names. -/
def asmStep (thePortal : String) (z : Except AsmExit AsmState) (c : AsmCand) :
    Except AsmExit AsmState :=
  match z with
  | .error e => .error e
  | .ok st =>
    if portalOf c.url = "Altbr1" then .error .exit
    else if asmExcluded c then .ok st
    else
      let st' :=
        if portalOf c.url = thePortal then
          { st with selected := some (mkAsmDesc c) }
        else
          { st with portalWarnings := st.portalWarnings ++ [portalOf c.url] }
      .ok { st' with duplicated := st'.duplicated ++ [c.filename] }

/-- The loop of annotate_assembly over all elements of the Assembly node,
for the record of thePortal.  After the loop the source prints the
more-than-one-assembly warning exactly when the duplicated list has more
than one entry; it does not raise. -/
def annotate_assembly (thePortal : String) (cands : List AsmCand) :
    Except AsmExit AsmState :=
  cands.foldl (asmStep thePortal) (.ok ⟨none, [], []⟩)

/-! ## Annotation (gff) resolver (annotate_gff, lines 770-909)

Again we model the resolution for the record of one portal, thePortal.  The
per-portal hardcoded override table is passed as the optional override for
that portal; the explicit ignore set is a parameter (the source uses the
module constant ignore_gff_filenames).  The audit list gff_filenames of the
source is not part of the model (no claim mentions it); the skipped set is
kept as the list of the names added to it, and the unexpected-case log
messages (lines 902-907) are recorded in anomalies. -/

/-- One candidate element from the Genes xml node. -/
structure GffCand where
  filename : String
  url : String
  timestamp : String
  sizeInBytes : Nat
deriving DecidableEq

/-- The gff fields of a JGI_Project record. -/
structure GffDesc where
  gff_file : String
  gff_url : String
  gff_timestamp : Int
  gff_size : Nat
deriving DecidableEq

/-- Errors escaping annotate_gff: the timestamp conversion errors, and the
KeyError of organisms_csv[portal] when a url names a portal that has no
record (line 828; our model holds the single record of thePortal). -/
inductive GffErr where
  | ts (e : TSErr)
  | keyErrorPortal
deriving DecidableEq

/-- State of the gff resolution: the current best descriptor of the record
(none models the initial empty-string gff_file), the skipped_gffs names in
insertion order, and the logged unexpected-case pairs
(current gff_file, candidate filename). -/
structure GffState where
  best : Option GffDesc
  skipped : List String
  anomalies : List (String × String)
deriving DecidableEq

/-- One iteration of the loop of annotate_gff (lines 818-907) for the
record of thePortal, with the override configured for that portal and the
ignore set as parameters.  Branch order follows the source: removed-portal
check, record lookup, timestamp conversion, hardcoded override, ignore set,
content-substring exclusions, suffix exclusions, then the selection and
replacement policy. -/
def gffStep (thePortal : String) (hardcoded : Option String)
    (ignore : List String) (st : GffState) (c : GffCand) :
    Except GffErr GffState :=
  if portalsToRemove.contains (portalOf c.url) then .ok st
  else if portalOf c.url ≠ thePortal then .error .keyErrorPortal
  else
    match parseTimestamp c.timestamp with
    | .error e => .error (.ts e)
    | .ok dt =>
      match hardcoded with
      | some hg =>
        if hg = c.filename then
          .ok { st with best := some ⟨c.filename, c.url, dt, c.sizeInBytes⟩ }
        else .ok { st with skipped := st.skipped ++ [c.filename] }
      | none =>
        if ignore.contains c.filename then
          .ok { st with skipped := st.skipped ++ [c.filename] }
        else if strContains (strToLower c.filename) "proteins" ||
                strContains (strToLower c.filename) "secondary_alleles" ||
                strContains (strToLower c.filename) "promoter_regions" then
          .ok { st with skipped := st.skipped ++ [c.filename] }
        else if lastN c.filename 6 = "gtf.gz" || lastN c.filename 3 = "tgz" ||
                lastN c.filename 2 ≠ "gz" then
          .ok { st with skipped := st.skipped ++ [c.filename] }
        else
          match st.best with
          | none =>
            .ok { st with best := some ⟨c.filename, c.url, dt, c.sizeInBytes⟩ }
          | some b =>
            if lastN c.filename 7 = "gff3.gz" ∧
               lastN b.gff_file 6 = "gff.gz" then
              .ok { st with best := some ⟨c.filename, c.url, dt, c.sizeInBytes⟩ }
            else if (lastN c.filename 7 = "gff3.gz" ∧
                     lastN b.gff_file 7 = "gff3.gz") ∨
                    (lastN c.filename 6 = "gff.gz" ∧
                     lastN b.gff_file 6 = "gff.gz") then
              if b.gff_timestamp < dt then
                .ok { st with
                       best := some ⟨c.filename, c.url, dt, c.sizeInBytes⟩ }
              else .ok st
            else if lastN c.filename 6 = "gff.gz" ∧
                    lastN b.gff_file 7 = "gff3.gz" then
              .ok st
            else
              .ok { st with
                     anomalies := st.anomalies ++ [(b.gff_file, c.filename)] }

/-- The step lifted to the error-absorbing accumulator of the loop. -/
def gffStepE (thePortal : String) (hardcoded : Option String)
    (ignore : List String) (z : Except GffErr GffState) (c : GffCand) :
    Except GffErr GffState :=
  match z with
  | .error e => .error e
  | .ok st => gffStep thePortal hardcoded ignore st c

/-- The loop of annotate_gff over all elements of the Genes node, for the
record of thePortal. -/
def annotate_gff (thePortal : String) (hardcoded : Option String)
    (ignore : List String) (cands : List GffCand) : Except GffErr GffState :=
  cands.foldl (gffStepE thePortal hardcoded ignore) (.ok ⟨none, [], []⟩)

/-- The survival predicate of the gff skip rules (steps 2-4 of the resolver
with no override configured): not ignored, no content-substring exclusion,
no suffix exclusion.  A candidate that fails it is added to skipped and
leaves the selection unchanged. -/
def gffSurvives (ignore : List String) (c : GffCand) : Prop :=
  ¬(c.filename ∈ ignore) ∧
  ¬((strContains (strToLower c.filename) "proteins" = true ∨
     strContains (strToLower c.filename) "secondary_alleles" = true) ∨
    strContains (strToLower c.filename) "promoter_regions" = true) ∧
  ¬((lastN c.filename 6 = "gtf.gz" ∨ lastN c.filename 3 = "tgz") ∨
    ¬lastN c.filename 2 = "gz")

instance (ignore : List String) (c : GffCand) :
    Decidable (gffSurvives ignore c) := by
  unfold gffSurvives
  infer_instance

/-- The gff descriptor a candidate would write into the record, given its
parsed instant. -/
def mkGffDesc (c : GffCand) (dt : Int) : GffDesc :=
  ⟨c.filename, c.url, dt, c.sizeInBytes⟩

/-- The replacement policy of annotate_gff (lines 874-907) projected onto
the best descriptor: how the current best changes when a surviving
candidate with descriptor d arrives. -/
def updBest (s : Option GffDesc) (d : GffDesc) : Option GffDesc :=
  match s with
  | none => some d
  | some b =>
    if lastN d.gff_file 7 = "gff3.gz" ∧ lastN b.gff_file 6 = "gff.gz" then
      some d
    else if (lastN d.gff_file 7 = "gff3.gz" ∧ lastN b.gff_file 7 = "gff3.gz") ∨
            (lastN d.gff_file 6 = "gff.gz" ∧ lastN b.gff_file 6 = "gff.gz") then
      if b.gff_timestamp < d.gff_timestamp then some d else some b
    else some b

/-- The best-descriptor projection of gffStepE in the no-override case,
used to state and prove order-independence of the final selection. -/
def gffBestStepE (thePortal : String) (ignore : List String)
    (z : Except GffErr (Option GffDesc)) (c : GffCand) :
    Except GffErr (Option GffDesc) :=
  match z with
  | .error e => .error e
  | .ok s =>
    if portalsToRemove.contains (portalOf c.url) then .ok s
    else if portalOf c.url ≠ thePortal then .error .keyErrorPortal
    else
      match parseTimestamp c.timestamp with
      | .error e => .error (.ts e)
      | .ok dt =>
        if gffSurvives ignore c then .ok (updBest s (mkGffDesc c dt))
        else .ok s

/-- The final selection (the best descriptor) of a resolver outcome. -/
def bestOf (z : Except GffErr GffState) : Except GffErr (Option GffDesc) :=
  z.map (·.best)

/-! ## Theorems -/

/-- C7: timestamp normalization exactness.  The normalization tables map
exactly the 8 US timezone abbreviations EST, CST, MST, PST, EDT, CDT, MDT,
PDT to the offsets -0500, -0600, -0700, -0800, -0400, -0500, -0600, -0700,
the weekday names Sun..Sat to 0..6 and the month names Jan..Dec to 01..12
(any other key raises KeyError, here: none); the input
"Sun Oct 12 11:02:03 PDT 2014" normalizes to weekday 0, month 10 and UTC
offset -07:00 and parses to the instant 1413136923 (= 2014-10-12T18:02:03Z);
equal wall-clock+zone inputs give equal instants (the MDT form of the same
instant agrees), and instants are integers usable for ordering (the 2012
example of the source precedes the 2014 instance). -/
theorem c7_timestamp_normalization_exact :
    UStimezones.length = 8 ∧ USdaynums.length = 7 ∧ USmonthnums.length = 12 ∧
    dictGet UStimezones "EST" = some "-0500" ∧
    dictGet UStimezones "CST" = some "-0600" ∧
    dictGet UStimezones "MST" = some "-0700" ∧
    dictGet UStimezones "PST" = some "-0800" ∧
    dictGet UStimezones "EDT" = some "-0400" ∧
    dictGet UStimezones "CDT" = some "-0500" ∧
    dictGet UStimezones "MDT" = some "-0600" ∧
    dictGet UStimezones "PDT" = some "-0700" ∧
    dictGet UStimezones "UTC" = none ∧
    dictGet UStimezones "GMT" = none ∧
    dictGet USdaynums "Sun" = some "0" ∧
    dictGet USdaynums "Mon" = some "1" ∧
    dictGet USdaynums "Tue" = some "2" ∧
    dictGet USdaynums "Wed" = some "3" ∧
    dictGet USdaynums "Thu" = some "4" ∧
    dictGet USdaynums "Fri" = some "5" ∧
    dictGet USdaynums "Sat" = some "6" ∧
    dictGet USmonthnums "Jan" = some "01" ∧
    dictGet USmonthnums "Feb" = some "02" ∧
    dictGet USmonthnums "Mar" = some "03" ∧
    dictGet USmonthnums "Apr" = some "04" ∧
    dictGet USmonthnums "May" = some "05" ∧
    dictGet USmonthnums "Jun" = some "06" ∧
    dictGet USmonthnums "Jul" = some "07" ∧
    dictGet USmonthnums "Aug" = some "08" ∧
    dictGet USmonthnums "Sep" = some "09" ∧
    dictGet USmonthnums "Oct" = some "10" ∧
    dictGet USmonthnums "Nov" = some "11" ∧
    dictGet USmonthnums "Dec" = some "12" ∧
    normalizeTimestamp "Sun Oct 12 11:02:03 PDT 2014" =
      .ok "0 10 12 11:02:03 -0700 2014" ∧
    parseTimestamp "Sun Oct 12 11:02:03 PDT 2014" = .ok 1413136923 ∧
    parseTimestamp "Sun Oct 12 12:02:03 MDT 2014" = .ok 1413136923 ∧
    parseTimestamp "Wed Mar 07 17:13:42 PST 2012" = .ok 1331169222 ∧
    (1331169222 : Int) < 1413136923 := by
  decide

/-- C8: the lineage classifier is a total function on lineage sets (it is a
plain function into path-segment lists, never an exception): it always
produces a nonempty path, and the empty lineage set, as produced by a
failed taxonomy lookup, falls through the non-dikarya branch and the
ambiguous-leaf rule to base/no_rank/no_rank. -/
theorem c8_classifier_total_empty_default (o : List String) :
    (∀ lineage_set : Finset String,
       get_final_output_folder o lineage_set ≠ []) ∧
    get_final_output_folder o ∅ = o ++ ["no_rank", "no_rank"] := by
  constructor
  · intro lineage_set
    unfold get_final_output_folder
    split_ifs <;> simp
  · unfold get_final_output_folder
    simp

/-- Witness for C8: the empty lineage at a concrete base folder lands in
base/no_rank/no_rank. -/
theorem c8_classifier_total_empty_default_witness :
    get_final_output_folder ["base"] ∅ = ["base", "no_rank", "no_rank"] :=
  (c8_classifier_total_empty_default ["base"]).2

/-- C4: lineage classifier leaf rule.  For every lineage set, if its
intersection with the 28-element branch-marker set is a singleton then the
final path segment is that element upper-cased; if the intersection has
zero elements or more than one element, the final segment is the literal
no_rank. -/
theorem c4_leaf_rule (o : List String) (lineage_set : Finset String) :
    (∀ x, lineage_set ∩ jgiTreeBranches = {x} →
       (get_final_output_folder o lineage_set).getLast? =
         some (strToUpper x)) ∧
    ((lineage_set ∩ jgiTreeBranches).card ≠ 1 →
       (get_final_output_folder o lineage_set).getLast? = some "no_rank") := by
  constructor
  · intro x h
    unfold get_final_output_folder
    rw [h]
    simp [Finset.sort_singleton, List.getLast?_concat]
  · intro h
    unfold get_final_output_folder
    rw [if_neg h]
    exact List.getLast?_concat _

/-- Witness for C4 at concrete inputs: a lineage meeting exactly one marker
gets that marker upper-cased as leaf, and a lineage meeting two markers
gets the no_rank leaf. -/
theorem c4_leaf_rule_witness :
    (get_final_output_folder ["o"]
        {"fungi", "eurotiomycetes"}).getLast? =
      some (strToUpper "eurotiomycetes") ∧
    (get_final_output_folder ["o"]
        {"eurotiomycetes", "sordariomycetes"}).getLast? = some "no_rank" :=
  ⟨(c4_leaf_rule ["o"] {"fungi", "eurotiomycetes"}).1 "eurotiomycetes"
      (by decide),
   (c4_leaf_rule ["o"] {"eurotiomycetes", "sordariomycetes"}).2 (by decide)⟩

/-- Helper: once the assembly loop has exited (error state), the remaining
candidates change nothing. -/
theorem asm_foldl_error (tp : String) (e : AsmExit) (l : List AsmCand) :
    l.foldl (asmStep tp) (.error e) = .error e := by
  induction l with
  | nil => rfl
  | cons c cs ih => simpa [asmStep] using ih

/-- C10: for every assembly candidate whose url has third slash-separated
segment Altbr1, annotate_assembly terminates the process (exit) from any
state, before the exclusion and selection rules are applied to the
candidate (the hypotheses put no constraint on its filename), and the
remaining candidates are never processed. -/
theorem c10_altbr1_exit (thePortal : String) (st : AsmState) (c : AsmCand)
    (h : portalOf c.url = "Altbr1") :
    asmStep thePortal (.ok st) c = .error .exit ∧
    ∀ cands : List AsmCand,
      (c :: cands).foldl (asmStep thePortal) (.ok st) = .error .exit := by
  have hstep : asmStep thePortal (.ok st) c = .error .exit := by
    simp [asmStep, h]
  exact ⟨hstep, fun cands => by
    simpa [List.foldl_cons, hstep] using asm_foldl_error thePortal .exit cands⟩

/-- Witness for C10: a concrete Altbr1 candidate whose filename is even in
the static excluded-filename set still aborts the whole pass. -/
theorem c10_altbr1_exit_witness :
    asmStep "Altbr1"
      (.ok ⟨none, [], []⟩)
      ⟨"Spofi1.draft.mito.scaffolds.fasta.gz",
       "/portal/Altbr1/download/Spofi1.draft.mito.scaffolds.fasta.gz", 5⟩ =
      .error .exit :=
  (c10_altbr1_exit "Altbr1" ⟨none, [], []⟩
    ⟨"Spofi1.draft.mito.scaffolds.fasta.gz",
     "/portal/Altbr1/download/Spofi1.draft.mito.scaffolds.fasta.gz", 5⟩
    (by decide)).1

/-- Helper: characterization of the assembly loop for candidates of one
portal (no Altbr1 abort): the selected descriptor is the last surviving
candidate (or the initial one when none survives) and duplicated_names
collects the filenames of all survivors in order. -/
theorem asm_foldl_characterization (tp : String) (cands : List AsmCand)
    (htp : tp ≠ "Altbr1") :
    ∀ st : AsmState, (∀ c ∈ cands, portalOf c.url = tp) →
      cands.foldl (asmStep tp) (.ok st) =
        .ok ⟨((cands.filter (fun c => !asmExcluded c)).getLast?.map
                mkAsmDesc).or st.selected,
             st.duplicated ++
               (cands.filter (fun c => !asmExcluded c)).map (·.filename),
             st.portalWarnings⟩ := by
  induction cands with
  | nil => intro st _; simp
  | cons c cs ih =>
    intro st hall
    have hc : portalOf c.url = tp := hall c (List.mem_cons_self c cs)
    have hcs : ∀ d ∈ cs, portalOf d.url = tp :=
      fun d hd => hall d (List.mem_cons_of_mem c hd)
    by_cases hex : asmExcluded c
    · have hstep : asmStep tp (.ok st) c = .ok st := by
        simp [asmStep, hex, hc, htp]
      rw [List.foldl_cons, hstep, ih st hcs]
      simp [List.filter_cons, hex]
    · have hstep : asmStep tp (.ok st) c =
          .ok ⟨some (mkAsmDesc c), st.duplicated ++ [c.filename],
               st.portalWarnings⟩ := by
        simp [asmStep, hex, hc, htp]
      rw [List.foldl_cons, hstep,
          ih ⟨some (mkAsmDesc c), st.duplicated ++ [c.filename],
              st.portalWarnings⟩ hcs]
      have hfc : (c :: cs).filter (fun d => !asmExcluded d) =
          c :: cs.filter (fun d => !asmExcluded d) := by
        simp [List.filter_cons, hex]
      rw [hfc]
      rcases hf : cs.filter (fun d => !asmExcluded d) with _ | ⟨d, ds⟩
      · simp [hf]
      · rcases hlast : (d :: ds).getLast? with _ | x
        · simp at hlast
        · simp [List.getLast?_cons_cons, hlast]

/-- C3 (amended): when all candidates belong to one portal that is not the
aborting Altbr1 portal and more than one candidate survives the exclusion
rules, the selected assembly descriptor is the LAST surviving candidate in
iteration order (the loop overwrites the record on every survivor), and
the multiple-survivor case is reported through the duplicated-names
warning (the pass returns normally, no exception). -/
theorem c3_assembly_last_survivor_warning (tp : String) (cands : List AsmCand)
    (htp : tp ≠ "Altbr1") (hall : ∀ c ∈ cands, portalOf c.url = tp)
    (hmulti : 1 < (cands.filter (fun c => !asmExcluded c)).length) :
    annotate_assembly tp cands =
      .ok ⟨(cands.filter (fun c => !asmExcluded c)).getLast?.map mkAsmDesc,
           (cands.filter (fun c => !asmExcluded c)).map (·.filename), []⟩ ∧
    1 < ((cands.filter (fun c => !asmExcluded c)).map (·.filename)).length := by
  constructor
  · have := asm_foldl_characterization tp cands htp ⟨none, [], []⟩ hall
    simpa [annotate_assembly] using this
  · simpa using hmulti

/-- Witness for C3 (amended) at a concrete two-survivor input. -/
theorem c3_assembly_last_survivor_warning_witness :
    annotate_assembly "Trire2"
        [⟨"A_scaffolds.fasta.gz",
          "/portal/Trire2/download/A_scaffolds.fasta.gz", 10⟩,
         ⟨"B_scaffolds.fasta.gz",
          "/portal/Trire2/download/B_scaffolds.fasta.gz", 20⟩] =
      .ok ⟨(([⟨"A_scaffolds.fasta.gz",
               "/portal/Trire2/download/A_scaffolds.fasta.gz", 10⟩,
              ⟨"B_scaffolds.fasta.gz",
               "/portal/Trire2/download/B_scaffolds.fasta.gz", 20⟩] :
               List AsmCand).filter
              (fun c => !asmExcluded c)).getLast?.map mkAsmDesc,
           (([⟨"A_scaffolds.fasta.gz",
               "/portal/Trire2/download/A_scaffolds.fasta.gz", 10⟩,
              ⟨"B_scaffolds.fasta.gz",
               "/portal/Trire2/download/B_scaffolds.fasta.gz", 20⟩] :
               List AsmCand).filter
              (fun c => !asmExcluded c)).map (·.filename), []⟩ ∧
    1 < ((([⟨"A_scaffolds.fasta.gz",
             "/portal/Trire2/download/A_scaffolds.fasta.gz", 10⟩,
            ⟨"B_scaffolds.fasta.gz",
             "/portal/Trire2/download/B_scaffolds.fasta.gz", 20⟩] :
             List AsmCand).filter
            (fun c => !asmExcluded c)).map (·.filename)).length :=
  c3_assembly_last_survivor_warning "Trire2" _
    (by decide) (by decide) (by decide)

/-- Counterexample for C3 as stated: with two surviving candidates A then B
for portal Trire2, the first surviving candidate is A, but the resolver
selects B (the last one); so the selected descriptor is not the first
surviving candidate. -/
theorem c3_first_survivor_counterexample :
    (([⟨"A_scaffolds.fasta.gz",
        "/portal/Trire2/download/A_scaffolds.fasta.gz", 10⟩,
       ⟨"B_scaffolds.fasta.gz",
        "/portal/Trire2/download/B_scaffolds.fasta.gz", 20⟩] :
        List AsmCand).filter (fun c => !asmExcluded c)).head? =
      some ⟨"A_scaffolds.fasta.gz",
            "/portal/Trire2/download/A_scaffolds.fasta.gz", 10⟩ ∧
    annotate_assembly "Trire2"
        [⟨"A_scaffolds.fasta.gz",
          "/portal/Trire2/download/A_scaffolds.fasta.gz", 10⟩,
         ⟨"B_scaffolds.fasta.gz",
          "/portal/Trire2/download/B_scaffolds.fasta.gz", 20⟩] =
      .ok ⟨some ⟨"B_scaffolds.fasta.gz",
                 "/portal/Trire2/download/B_scaffolds.fasta.gz", 20⟩,
           ["A_scaffolds.fasta.gz", "B_scaffolds.fasta.gz"], []⟩ ∧
    (⟨"B_scaffolds.fasta.gz",
      "/portal/Trire2/download/B_scaffolds.fasta.gz", 20⟩ : AsmDesc) ≠
      mkAsmDesc ⟨"A_scaffolds.fasta.gz",
                 "/portal/Trire2/download/A_scaffolds.fasta.gz", 10⟩ := by
  decide

/-- Helper: taking the last m characters after taking the last n (m ≤ n)
is taking the last m directly. -/
theorem lastN_lastN (s : String) (n m : Nat) (h : m ≤ n) :
    lastN (lastN s n) m = lastN s m := by
  unfold lastN
  simp only [List.length_drop, List.drop_drop]
  congr 2
  omega

/-- Helper: a filename with Python slice [-7:] equal to gff3.gz has the
shorter suffixes ff3.gz, .gz, gz; in particular it is not of the plain
gff.gz class and not excluded by the gtf.gz / tgz / non-gz suffix rules. -/
theorem suffixes_of_gff3 (f : String) (h : lastN f 7 = "gff3.gz") :
    lastN f 6 = "ff3.gz" ∧ lastN f 3 = ".gz" ∧ lastN f 2 = "gz" := by
  refine ⟨?_, ?_, ?_⟩ <;>
    [rw [← lastN_lastN f 7 6 (by omega), h];
     rw [← lastN_lastN f 7 3 (by omega), h];
     rw [← lastN_lastN f 7 2 (by omega), h]] <;> decide

/-- Helper: a filename with Python slice [-6:] equal to gff.gz has the
shorter suffixes .gz and gz, so it is not excluded by the tgz / non-gz
suffix rules. -/
theorem suffixes_of_gff (f : String) (h : lastN f 6 = "gff.gz") :
    lastN f 3 = ".gz" ∧ lastN f 2 = "gz" := by
  refine ⟨?_, ?_⟩ <;>
    [rw [← lastN_lastN f 6 3 (by omega), h];
     rw [← lastN_lastN f 6 2 (by omega), h]] <;> decide

/-- Helper: the two format classes are disjoint: a gff3.gz filename is not
a plain gff.gz filename. -/
theorem gff3_not_plain_gff (f : String) (h : lastN f 7 = "gff3.gz") :
    lastN f 6 ≠ "gff.gz" := by
  rw [(suffixes_of_gff3 f h).1]
  decide

/-- Helper: once the gff loop has failed (uncaught exception), the
remaining candidates change nothing. -/
theorem gff_foldl_error (tp : String) (hc : Option String) (ig : List String)
    (e : GffErr) (l : List GffCand) :
    l.foldl (gffStepE tp hc ig) (.error e) = .error e := by
  induction l with
  | nil => rfl
  | cons c cs ih => simpa [gffStepE] using ih

/-- C1: format preference beats recency.  With no hardcoded override, when
the current best descriptor is of the plain gff.gz class and a surviving
candidate of the gff3.gz class arrives, the candidate replaces the best
unconditionally, for every pair of timestamps; and on the concrete input
[A.gff.gz at 2020-01-01, B.gff3.gz at 2019-01-01] in that order the
resolver selects B.gff3.gz. -/
theorem c1_gff3_beats_recency :
    (∀ (thePortal : String) (ignore skipped : List String)
       (anomalies : List (String × String)) (b : GffDesc) (c : GffCand)
       (t : Int),
       thePortal ∉ portalsToRemove →
       portalOf c.url = thePortal →
       parseTimestamp c.timestamp = .ok t →
       c.filename ∉ ignore →
       (strContains (strToLower c.filename) "proteins" ||
        strContains (strToLower c.filename) "secondary_alleles" ||
        strContains (strToLower c.filename) "promoter_regions") = false →
       lastN c.filename 7 = "gff3.gz" →
       lastN b.gff_file 6 = "gff.gz" →
       gffStep thePortal none ignore ⟨some b, skipped, anomalies⟩ c =
         .ok ⟨some (mkGffDesc c t), skipped, anomalies⟩) ∧
    annotate_gff "Trire2" none ignoreGffFilenames
        [⟨"A.gff.gz", "/portal/Trire2/download/A.gff.gz",
          "Wed Jan 01 00:00:00 PST 2020", 11⟩,
         ⟨"B.gff3.gz", "/portal/Trire2/download/B.gff3.gz",
          "Tue Jan 01 00:00:00 PST 2019", 22⟩] =
      .ok ⟨some ⟨"B.gff3.gz", "/portal/Trire2/download/B.gff3.gz",
                 1546329600, 22⟩, [], []⟩ := by
  constructor
  · intro thePortal ignore skipped anomalies b c t hrem hport hts hig hsub
      hc3 hb
    obtain ⟨h6, h3, h2⟩ := suffixes_of_gff3 c.filename hc3
    simp [gffStep, hport, hrem, hts, hig, hsub, h6, h3, h2, hc3, hb, mkGffDesc]
  · decide

/-- Witness for C1: the general replacement step applied at the concrete
state after A.gff.gz (instant of 2020-01-01 PST) upon arrival of B.gff3.gz
with the older 2019-01-01 PST timestamp. -/
theorem c1_gff3_beats_recency_witness :
    gffStep "Trire2" none ignoreGffFilenames
        ⟨some ⟨"A.gff.gz", "/portal/Trire2/download/A.gff.gz",
               1577865600, 11⟩, [], []⟩
        ⟨"B.gff3.gz", "/portal/Trire2/download/B.gff3.gz",
         "Tue Jan 01 00:00:00 PST 2019", 22⟩ =
      .ok ⟨some (mkGffDesc
                  ⟨"B.gff3.gz", "/portal/Trire2/download/B.gff3.gz",
                   "Tue Jan 01 00:00:00 PST 2019", 22⟩ 1546329600),
           [], []⟩ :=
  c1_gff3_beats_recency.1 "Trire2" ignoreGffFilenames [] []
    ⟨"A.gff.gz", "/portal/Trire2/download/A.gff.gz", 1577865600, 11⟩
    ⟨"B.gff3.gz", "/portal/Trire2/download/B.gff3.gz",
     "Tue Jan 01 00:00:00 PST 2019", 22⟩
    1546329600 (by decide) (by decide) (by decide) (by decide) (by decide)
    (by decide) (by decide)

/-- C6: unexpected format-combination atomicity.  A surviving candidate
that reaches the replacement-policy step while matching none of the three
recognized suffix combinations (gff3-over-gff, same class, gff-under-gff3)
leaves the current best descriptor unchanged in all fields, adds the
anomaly to the log, and raises no exception (the step returns ok). -/
theorem c6_unexpected_combination_logged (thePortal : String)
    (ignore skipped : List String) (anomalies : List (String × String))
    (b : GffDesc) (c : GffCand) (t : Int)
    (hrem : thePortal ∉ portalsToRemove)
    (hport : portalOf c.url = thePortal)
    (hts : parseTimestamp c.timestamp = .ok t)
    (hig : c.filename ∉ ignore)
    (hsub : (strContains (strToLower c.filename) "proteins" ||
             strContains (strToLower c.filename) "secondary_alleles" ||
             strContains (strToLower c.filename) "promoter_regions") = false)
    (hg1 : lastN c.filename 6 ≠ "gtf.gz")
    (hg2 : lastN c.filename 3 ≠ "tgz")
    (hg3 : lastN c.filename 2 = "gz")
    (hn1 : ¬(lastN c.filename 7 = "gff3.gz" ∧ lastN b.gff_file 6 = "gff.gz"))
    (hn2 : ¬((lastN c.filename 7 = "gff3.gz" ∧
              lastN b.gff_file 7 = "gff3.gz") ∨
             (lastN c.filename 6 = "gff.gz" ∧
              lastN b.gff_file 6 = "gff.gz")))
    (hn3 : ¬(lastN c.filename 6 = "gff.gz" ∧
             lastN b.gff_file 7 = "gff3.gz")) :
    gffStep thePortal none ignore ⟨some b, skipped, anomalies⟩ c =
      .ok ⟨some b, skipped, anomalies ++ [(b.gff_file, c.filename)]⟩ := by
  simp [gffStep, hport, hrem, hts, hig, hsub, hg1, hg2, hg3, hn1, hn2, hn3]

/-- Witness for C6: a surviving candidate C.weird.gz (gz but neither
gff3.gz nor gff.gz) against a plain gff.gz best is logged and changes
nothing. -/
theorem c6_unexpected_combination_logged_witness :
    gffStep "Trire2" none ignoreGffFilenames
        ⟨some ⟨"A.gff.gz", "/portal/Trire2/download/A.gff.gz",
               1577865600, 11⟩, [], []⟩
        ⟨"C.weird.gz", "/portal/Trire2/download/C.weird.gz",
         "Sun Oct 12 11:02:03 PDT 2014", 33⟩ =
      .ok ⟨some ⟨"A.gff.gz", "/portal/Trire2/download/A.gff.gz",
                 1577865600, 11⟩, [],
           [("A.gff.gz", "C.weird.gz")]⟩ :=
  c6_unexpected_combination_logged "Trire2" ignoreGffFilenames [] []
    ⟨"A.gff.gz", "/portal/Trire2/download/A.gff.gz", 1577865600, 11⟩
    ⟨"C.weird.gz", "/portal/Trire2/download/C.weird.gz",
     "Sun Oct 12 11:02:03 PDT 2014", 33⟩
    1413136923 (by decide) (by decide) (by decide) (by decide) (by decide)
    (by decide) (by decide) (by decide) (by decide) (by decide) (by decide)

/-- C9 (amended): annotation resolution is not total over timestamps.  For
every candidate that passes the removed-portal check and resolves to the
modelled record, a timestamp that does not split into six fields or whose
weekday, month or timezone abbreviation misses the lookup tables makes the
step fail with the corresponding uncaught ValueError / KeyError (the
hypotheses put no constraint on the override, the ignore set or the
filename, so the failure precedes every remaining exclusion and selection
rule), and the loop for the whole portal then fails. -/
theorem c9_timestamp_failure_aborts_portal (thePortal : String)
    (hardcoded : Option String) (ignore : List String) (st : GffState)
    (c : GffCand) (e : TSErr) (cands : List GffCand)
    (hrem : thePortal ∉ portalsToRemove)
    (hport : portalOf c.url = thePortal)
    (hts : parseTimestamp c.timestamp = .error e) :
    gffStep thePortal hardcoded ignore st c = .error (.ts e) ∧
    (c :: cands).foldl (gffStepE thePortal hardcoded ignore) (.ok st) =
      .error (.ts e) := by
  have hstep : gffStep thePortal hardcoded ignore st c = .error (.ts e) := by
    simp [gffStep, hport, hrem, hts]
  refine ⟨hstep, ?_⟩
  have : gffStepE thePortal hardcoded ignore (.ok st) c = .error (.ts e) := by
    simpa [gffStepE] using hstep
  rw [List.foldl_cons, this]
  exact gff_foldl_error thePortal hardcoded ignore (.ts e) cands

/-- Witness for C9 (amended): a single candidate with timezone UTC (not in
the table) fails the whole pass with the KeyError, although its filename is
named by the override and contained in the ignore set. -/
theorem c9_timestamp_failure_aborts_portal_witness :
    gffStep "Trire2" (some "X.gff3.gz") ["X.gff3.gz"] ⟨none, [], []⟩
        ⟨"X.gff3.gz", "/portal/Trire2/download/X.gff3.gz",
         "Sun Oct 12 11:02:03 UTC 2014", 5⟩ =
      .error (.ts .keyErrorTimezone) ∧
    ([⟨"X.gff3.gz", "/portal/Trire2/download/X.gff3.gz",
       "Sun Oct 12 11:02:03 UTC 2014", 5⟩] :
       List GffCand).foldl
        (gffStepE "Trire2" (some "X.gff3.gz") ["X.gff3.gz"])
        (.ok ⟨none, [], []⟩) =
      .error (.ts .keyErrorTimezone) :=
  c9_timestamp_failure_aborts_portal "Trire2" (some "X.gff3.gz")
    ["X.gff3.gz"] ⟨none, [], []⟩
    ⟨"X.gff3.gz", "/portal/Trire2/download/X.gff3.gz",
     "Sun Oct 12 11:02:03 UTC 2014", 5⟩
    .keyErrorTimezone [] (by decide) (by decide) (by decide)

/-- Counterexample for C9 as stated: a candidate of a removed portal
(Pospl1) with an unparseable timestamp (timezone UTC) raises nothing at
all: the removed-portal check precedes the timestamp conversion, so the
candidate is skipped silently (not even marked skipped) and the pass
returns normally, against the claim that every candidate with such a
timestamp raises for the whole portal before any exclusion rule. -/
theorem c9_counterexample :
    parseTimestamp "Sun Oct 12 11:02:03 UTC 2014" =
      .error .keyErrorTimezone ∧
    gffStep "Trire2" none ignoreGffFilenames ⟨none, [], []⟩
        ⟨"X.gff.gz", "/portal/Pospl1/download/X.gff.gz",
         "Sun Oct 12 11:02:03 UTC 2014", 5⟩ =
      .ok ⟨none, [], []⟩ ∧
    annotate_gff "Trire2" none ignoreGffFilenames
        [⟨"X.gff.gz", "/portal/Pospl1/download/X.gff.gz",
          "Sun Oct 12 11:02:03 UTC 2014", 5⟩] =
      .ok ⟨none, [], []⟩ := by
  decide

/-- Helper: single-step invariants for the promoter-exclusion argument.
When the override (if any) does not name F and F is a promoter_regions
name, a successful step keeps the skipped set monotone, never installs F
as best, and marks a processed F-candidate (one passing the removed-portal
check) as skipped. -/
theorem gffStep_promoter_inv (tp : String) (hc : Option String)
    (ig : List String) (F : String) (st₀ st₁ : GffState) (c : GffCand)
    (hF : strContains (strToLower F) "promoter_regions" = true)
    (hhc : ∀ g, hc = some g → g ≠ F)
    (hinv : ∀ d, st₀.best = some d → d.gff_file ≠ F)
    (hok : gffStep tp hc ig st₀ c = .ok st₁) :
    (∀ x ∈ st₀.skipped, x ∈ st₁.skipped) ∧
    (∀ d, st₁.best = some d → d.gff_file ≠ F) ∧
    (c.filename = F → portalOf c.url ∉ portalsToRemove → F ∈ st₁.skipped) := by
  have hcne : ∀ h : strContains (strToLower c.filename) "promoter_regions"
      = false, c.filename ≠ F := by
    intro h heq
    rw [heq, hF] at h
    cases h
  unfold gffStep at hok
  repeat' split at hok
  all_goals try exact (Except.noConfusion hok)
  all_goals injection hok with hok
  all_goals subst hok
  all_goals refine ⟨fun x hx => ?_, fun d hd => ?_, fun hfn hport => ?_⟩
  all_goals simp_all [List.mem_append, mkGffDesc]
  all_goals intro heq
  all_goals subst heq
  all_goals try rw [← hd] at hF
  all_goals try rw [← hd] at hhc
  all_goals simp_all

/-- Helper: the promoter-exclusion invariants carried over the whole loop:
from an initial state whose best is not an F-file, a successful pass keeps
the initial skipped names, never ends with F as the best file, and has
marked F as skipped whenever some processed candidate carried it. -/
theorem gff_foldl_promoter_inv (tp : String) (hc : Option String)
    (ig : List String) (F : String)
    (hF : strContains (strToLower F) "promoter_regions" = true)
    (hhc : ∀ g, hc = some g → g ≠ F) :
    ∀ (cands : List GffCand) (st₀ st : GffState),
      (∀ d, st₀.best = some d → d.gff_file ≠ F) →
      cands.foldl (gffStepE tp hc ig) (.ok st₀) = .ok st →
      (∀ x ∈ st₀.skipped, x ∈ st.skipped) ∧
      (∀ d, st.best = some d → d.gff_file ≠ F) ∧
      (∀ c ∈ cands, c.filename = F → portalOf c.url ∉ portalsToRemove →
        F ∈ st.skipped) := by
  intro cands
  induction cands with
  | nil =>
    intro st₀ st hinv hfold
    obtain rfl : st₀ = st := by simpa using hfold
    exact ⟨fun x hx => hx, hinv, by simp⟩
  | cons c cs ih =>
    intro st₀ st hinv hfold
    rw [List.foldl_cons] at hfold
    rcases hz : gffStep tp hc ig st₀ c with e | st₁
    · rw [show gffStepE tp hc ig (.ok st₀) c = .error e by
          simp [gffStepE, hz]] at hfold
      rw [gff_foldl_error] at hfold
      exact absurd hfold (by simp)
    · rw [show gffStepE tp hc ig (.ok st₀) c = .ok st₁ by
          simp [gffStepE, hz]] at hfold
      obtain ⟨hsub, hbest, hskip⟩ :=
        gffStep_promoter_inv tp hc ig F st₀ st₁ c hF hhc hinv hz
      obtain ⟨hsub', hbest', hskip'⟩ := ih st₁ st hbest hfold
      refine ⟨fun x hx => hsub' x (hsub x hx), hbest', ?_⟩
      intro d hd hdF hdport
      rcases List.mem_cons.mp hd with rfl | hmem
      · exact hsub' F (hskip hdF hdport)
      · exact hskip' d hmem hdF hdport

/-- C5 (amended): content-type exclusion of promoter_regions files.  For
every candidate sequence, ignore set, and override configuration whose
override (if any) does not name the file, a filename F whose lowercased
form contains promoter_regions is marked skipped whenever one of the
processed candidates carries it (passing the removed-portal check), and F
is never the selected annotation file of a completed pass. -/
theorem c5_promoter_regions_never_selected (thePortal : String)
    (hardcoded : Option String) (ignore : List String)
    (cands : List GffCand) (F : String) (st : GffState)
    (hF : strContains (strToLower F) "promoter_regions" = true)
    (hhc : ∀ g, hardcoded = some g → g ≠ F)
    (hres : annotate_gff thePortal hardcoded ignore cands = .ok st) :
    ((∃ c ∈ cands, c.filename = F ∧ portalOf c.url ∉ portalsToRemove) →
       F ∈ st.skipped) ∧
    ∀ d, st.best = some d → d.gff_file ≠ F := by
  obtain ⟨_, hbest, hskip⟩ :=
    gff_foldl_promoter_inv thePortal hardcoded ignore F hF hhc cands
      ⟨none, [], []⟩ st (by simp) (by simpa [annotate_gff] using hres)
  exact ⟨fun ⟨c, hc, hcF, hcport⟩ => hskip c hc hcF hcport, hbest⟩

/-- Witness for C5 (amended): with no override, the single candidate
X.Promoter_Regions.gff3.gz (mixed case) ends in the skipped set and is not
selected. -/
theorem c5_promoter_regions_never_selected_witness :
    ("X.Promoter_Regions.gff3.gz" ∈
      (⟨none, ["X.Promoter_Regions.gff3.gz"], []⟩ : GffState).skipped) ∧
    ∀ d, (⟨none, ["X.Promoter_Regions.gff3.gz"], []⟩ : GffState).best =
        some d → d.gff_file ≠ "X.Promoter_Regions.gff3.gz" :=
  have h := c5_promoter_regions_never_selected "Trire2" none
    ignoreGffFilenames
    [⟨"X.Promoter_Regions.gff3.gz",
      "/portal/Trire2/download/X.Promoter_Regions.gff3.gz",
      "Sun Oct 12 11:02:03 PDT 2014", 5⟩]
    "X.Promoter_Regions.gff3.gz"
    ⟨none, ["X.Promoter_Regions.gff3.gz"], []⟩
    (by decide) (fun g hg => Option.noConfusion hg) (by decide)
  ⟨h.1 ⟨⟨"X.Promoter_Regions.gff3.gz",
         "/portal/Trire2/download/X.Promoter_Regions.gff3.gz",
         "Sun Oct 12 11:02:03 PDT 2014", 5⟩,
        by simp, rfl, by decide⟩, h.2⟩

/-- Counterexample for C5 as stated: quantifying over every override
configuration fails, because the hardcoded-override rule precedes the
content-type exclusion: an override naming X.promoter_regions.gff3.gz
selects that file (and does not mark it skipped) even though its lowercased
name contains promoter_regions and it is the only candidate. -/
theorem c5_promoter_regions_counterexample :
    strContains (strToLower "X.promoter_regions.gff3.gz")
      "promoter_regions" = true ∧
    annotate_gff "Trire2" (some "X.promoter_regions.gff3.gz")
        ignoreGffFilenames
        [⟨"X.promoter_regions.gff3.gz",
          "/portal/Trire2/download/X.promoter_regions.gff3.gz",
          "Sun Oct 12 11:02:03 PDT 2014", 5⟩] =
      .ok ⟨some ⟨"X.promoter_regions.gff3.gz",
                 "/portal/Trire2/download/X.promoter_regions.gff3.gz",
                 1413136923, 5⟩, [], []⟩ := by
  decide

/-- Helper: the replacement policy commutes on gff-classed descriptors with
distinct timestamps, for every accumulator value.  The policy is the
lexicographic maximum on (format class, timestamp) with gff3 above gff, so
the order of two such arrivals does not matter. -/
theorem updBest_comm (s : Option GffDesc) (a b : GffDesc)
    (ha : lastN a.gff_file 7 = "gff3.gz" ∨ lastN a.gff_file 6 = "gff.gz")
    (hb : lastN b.gff_file 7 = "gff3.gz" ∨ lastN b.gff_file 6 = "gff.gz")
    (hab : a.gff_timestamp ≠ b.gff_timestamp) :
    updBest (updBest s a) b = updBest (updBest s b) a := by
  have hda := fun h => gff3_not_plain_gff a.gff_file h
  have hdb := fun h => gff3_not_plain_gff b.gff_file h
  have ha' : (lastN a.gff_file 7 = "gff3.gz" ∧
        ¬lastN a.gff_file 6 = "gff.gz") ∨
      (¬lastN a.gff_file 7 = "gff3.gz" ∧ lastN a.gff_file 6 = "gff.gz") := by
    rcases ha with h | h
    exacts [Or.inl ⟨h, hda h⟩, Or.inr ⟨fun h7 => hda h7 h, h⟩]
  have hb' : (lastN b.gff_file 7 = "gff3.gz" ∧
        ¬lastN b.gff_file 6 = "gff.gz") ∨
      (¬lastN b.gff_file 7 = "gff3.gz" ∧ lastN b.gff_file 6 = "gff.gz") := by
    rcases hb with h | h
    exacts [Or.inl ⟨h, hdb h⟩, Or.inr ⟨fun h7 => hdb h7 h, h⟩]
  clear ha hb
  rcases s with _ | b0
  · rcases ha' with ⟨hc1, hc2⟩ | ⟨hc1, hc2⟩ <;>
      rcases hb' with ⟨hc3, hc4⟩ | ⟨hc3, hc4⟩ <;>
      by_cases h3 : a.gff_timestamp < b.gff_timestamp <;>
      by_cases h4 : b.gff_timestamp < a.gff_timestamp <;>
      simp_all [updBest] <;> (try (exfalso; omega)) <;> (try split_ifs) <;>
      first
        | rfl
        | (exfalso; omega)
  · have hdb0 := fun h => gff3_not_plain_gff b0.gff_file h
    have hb0' : (lastN b0.gff_file 7 = "gff3.gz" ∧
          ¬lastN b0.gff_file 6 = "gff.gz") ∨
        (¬lastN b0.gff_file 7 = "gff3.gz" ∧ lastN b0.gff_file 6 = "gff.gz") ∨
        (¬lastN b0.gff_file 7 = "gff3.gz" ∧
          ¬lastN b0.gff_file 6 = "gff.gz") := by
      by_cases h7 : lastN b0.gff_file 7 = "gff3.gz"
      · exact Or.inl ⟨h7, hdb0 h7⟩
      · by_cases h6 : lastN b0.gff_file 6 = "gff.gz"
        · exact Or.inr (Or.inl ⟨h7, h6⟩)
        · exact Or.inr (Or.inr ⟨h7, h6⟩)
    rcases ha' with ⟨hc1, hc2⟩ | ⟨hc1, hc2⟩ <;>
      rcases hb' with ⟨hc3, hc4⟩ | ⟨hc3, hc4⟩ <;>
      rcases hb0' with ⟨hc5, hc6⟩ | ⟨hc5, hc6⟩ | ⟨hc5, hc6⟩ <;>
      by_cases h1 : b0.gff_timestamp < a.gff_timestamp <;>
      by_cases h2 : b0.gff_timestamp < b.gff_timestamp <;>
      by_cases h3 : a.gff_timestamp < b.gff_timestamp <;>
      simp_all [updBest] <;> (try (exfalso; omega)) <;> (try split_ifs) <;>
      first
        | rfl
        | (exfalso; omega)
        | (simp_all [updBest] <;> (try split_ifs) <;>
            first
              | rfl
              | (exfalso; omega))

/-- Helper: the best-descriptor projection of the no-override gff step is
computed by gffBestStepE. -/
theorem gffStep_best_proj (tp : String) (ig : List String)
    (z : Except GffErr GffState) (c : GffCand) :
    (gffStepE tp none ig z c).map (·.best) =
      gffBestStepE tp ig (z.map (·.best)) c := by
  rcases z with e | st
  · rfl
  · show (gffStep tp none ig st c).map (·.best) =
      gffBestStepE tp ig (.ok st.best) c
    unfold gffStep gffBestStepE
    by_cases h1 : portalOf c.url ∈ portalsToRemove
    · simp [h1, Except.map]
    · by_cases h2 : portalOf c.url = tp
      · have h1' : tp ∉ portalsToRemove := h2 ▸ h1
        rcases hts : parseTimestamp c.timestamp with e | dt
        · simp [h1, h1', h2, hts, Except.map]
        · by_cases hig : c.filename ∈ ig
          · simp [h1, h1', h2, hts, hig, Except.map, gffSurvives]
          · by_cases hsub :
                (strContains (strToLower c.filename) "proteins" = true ∨
                 strContains (strToLower c.filename)
                   "secondary_alleles" = true) ∨
                strContains (strToLower c.filename) "promoter_regions" = true
            · simp [h1, h1', h2, hts, hig, hsub, Except.map, gffSurvives]
            · by_cases hsfx : (lastN c.filename 6 = "gtf.gz" ∨
                  lastN c.filename 3 = "tgz") ∨ ¬lastN c.filename 2 = "gz"
              · simp [h1, h1', h2, hts, hig, hsub, hsfx, Except.map,
                        gffSurvives]
              · have hs : gffSurvives ig c := ⟨hig, hsub, hsfx⟩
                rcases hsb : st.best with _ | b
                · simp [h1, h1', h2, hts, hig, hsub, hsfx, hs, hsb,
                        Except.map, updBest, mkGffDesc]
                · simp [h1, h1', h2, hts, hig, hsub, hsfx, hs, hsb,
                        Except.map, updBest, mkGffDesc]
                  split_ifs <;> simp_all [Except.map]
      · simp [h1, h2, Except.map]

/-- Helper: the projection extended over the whole loop. -/
theorem gff_foldl_best_proj (tp : String) (ig : List String)
    (cands : List GffCand) :
    ∀ z, (cands.foldl (gffStepE tp none ig) z).map (·.best) =
      cands.foldl (gffBestStepE tp ig) (z.map (·.best)) := by
  induction cands with
  | nil => intro z; rfl
  | cons c cs ih =>
    intro z
    rw [List.foldl_cons, List.foldl_cons, ih, gffStep_best_proj]

/-- Helper: left-commutativity of the projected step on two candidates of
the modelled portal with parseable, distinct timestamps, both gff-classed
when surviving. -/
theorem gffBestStepE_comm (tp : String) (ig : List String) (x y : GffCand)
    (tx ty : Int)
    (hx : portalOf x.url = tp) (hy : portalOf y.url = tp)
    (htx : parseTimestamp x.timestamp = .ok tx)
    (hty : parseTimestamp y.timestamp = .ok ty)
    (hcx : gffSurvives ig x →
      lastN x.filename 7 = "gff3.gz" ∨ lastN x.filename 6 = "gff.gz")
    (hcy : gffSurvives ig y →
      lastN y.filename 7 = "gff3.gz" ∨ lastN y.filename 6 = "gff.gz")
    (hne : tx ≠ ty) :
    ∀ z, gffBestStepE tp ig (gffBestStepE tp ig z x) y =
      gffBestStepE tp ig (gffBestStepE tp ig z y) x := by
  intro z
  rcases z with e | s
  · rfl
  · by_cases hrem : tp ∈ portalsToRemove
    · simp [gffBestStepE, hx, hy, hrem]
    · by_cases hsx : gffSurvives ig x <;> by_cases hsy : gffSurvives ig y
      · simp [gffBestStepE, hx, hy, hrem, htx, hty, hsx, hsy,
          updBest_comm s (mkGffDesc x tx) (mkGffDesc y ty)
            (hcx hsx) (hcy hsy) hne]
      · simp [gffBestStepE, hx, hy, hrem, htx, hty, hsx, hsy]
      · simp [gffBestStepE, hx, hy, hrem, htx, hty, hsx, hsy]
      · simp [gffBestStepE, hx, hy, hrem, htx, hty, hsx, hsy]

/-- C2 (amended): order-independence of the final selection.  When no two
candidates have equal (parseable) timestamps, no hardcoded override is
configured, and every candidate surviving the skip rules is of one of the
two gff format classes, the selected descriptor of the fold is the same
for every permutation of the candidate sequence.  (Without the class
condition a surviving candidate of another .gz type can capture the
selection depending on its position; see the counterexample.) -/
theorem c2_no_ties_order_independent (tp : String) (ignore : List String)
    (l₁ l₂ : List GffCand) (hperm : l₁.Perm l₂)
    (hall : ∀ c ∈ l₁, portalOf c.url = tp)
    (hok : ∀ c ∈ l₁, ∃ t, parseTimestamp c.timestamp = .ok t)
    (hdist : l₁.Pairwise
      (fun c d => parseTimestamp c.timestamp ≠ parseTimestamp d.timestamp))
    (hcls : ∀ c ∈ l₁, gffSurvives ignore c →
      lastN c.filename 7 = "gff3.gz" ∨ lastN c.filename 6 = "gff.gz") :
    bestOf (annotate_gff tp none ignore l₁) =
      bestOf (annotate_gff tp none ignore l₂) := by
  unfold annotate_gff bestOf
  rw [gff_foldl_best_proj, gff_foldl_best_proj]
  refine List.Perm.foldl_eq' hperm ?_ _
  intro x hx y hy z
  by_cases hxy : x = y
  · subst hxy; rfl
  · obtain ⟨tx, htx⟩ := hok x hx
    obtain ⟨ty, hty⟩ := hok y hy
    have hsymm : Symmetric
        (fun c d : GffCand =>
          parseTimestamp c.timestamp ≠ parseTimestamp d.timestamp) :=
      fun _ _ h he => h he.symm
    have hpts := List.Pairwise.forall hsymm hdist hx hy hxy
    have hne : tx ≠ ty := by
      intro h
      rw [htx, hty, h] at hpts
      exact hpts rfl
    exact gffBestStepE_comm tp ignore x y tx ty (hall x hx) (hall y hy)
      htx hty (hcls x hx) (hcls y hy) hne z

/-- Witness for C2 (amended) at a concrete two-candidate input and its
swap: a gff3 candidate and a gff candidate with distinct timestamps give
the same selection in either order. -/
theorem c2_no_ties_order_independent_witness :
    bestOf (annotate_gff "Trire2" none ignoreGffFilenames
        [⟨"A.gff.gz", "/portal/Trire2/download/A.gff.gz",
          "Wed Jan 01 00:00:00 PST 2020", 11⟩,
         ⟨"B.gff3.gz", "/portal/Trire2/download/B.gff3.gz",
          "Tue Jan 01 00:00:00 PST 2019", 22⟩]) =
      bestOf (annotate_gff "Trire2" none ignoreGffFilenames
        [⟨"B.gff3.gz", "/portal/Trire2/download/B.gff3.gz",
          "Tue Jan 01 00:00:00 PST 2019", 22⟩,
         ⟨"A.gff.gz", "/portal/Trire2/download/A.gff.gz",
          "Wed Jan 01 00:00:00 PST 2020", 11⟩]) :=
  c2_no_ties_order_independent "Trire2" ignoreGffFilenames
    [⟨"A.gff.gz", "/portal/Trire2/download/A.gff.gz",
      "Wed Jan 01 00:00:00 PST 2020", 11⟩,
     ⟨"B.gff3.gz", "/portal/Trire2/download/B.gff3.gz",
      "Tue Jan 01 00:00:00 PST 2019", 22⟩]
    [⟨"B.gff3.gz", "/portal/Trire2/download/B.gff3.gz",
      "Tue Jan 01 00:00:00 PST 2019", 22⟩,
     ⟨"A.gff.gz", "/portal/Trire2/download/A.gff.gz",
      "Wed Jan 01 00:00:00 PST 2020", 11⟩]
    (List.Perm.swap _ _ _)
    (by decide)
    (by
      intro c hc
      rcases List.mem_cons.mp hc with rfl | hc
      · exact ⟨1577865600, by decide⟩
      · rcases List.mem_cons.mp hc with rfl | hc
        · exact ⟨1546329600, by decide⟩
        · cases hc)
    (by decide)
    (by decide)

/-- Counterexample for C2 as stated: with no timestamp ties and no
override, order can still matter, because a surviving candidate of another
.gz type (here X.fasta.gz) becomes the best when it arrives first and the
unexpected-combination rule then never replaces it: the two orders select
different descriptors. -/
theorem c2_order_dependence_counterexample :
    ([⟨"X.fasta.gz", "/portal/Trire2/download/X.fasta.gz",
       "Wed Jan 01 00:00:00 PST 2020", 1⟩,
      ⟨"A.gff.gz", "/portal/Trire2/download/A.gff.gz",
       "Tue Jan 01 00:00:00 PST 2019", 2⟩] : List GffCand).Perm
      [⟨"A.gff.gz", "/portal/Trire2/download/A.gff.gz",
        "Tue Jan 01 00:00:00 PST 2019", 2⟩,
       ⟨"X.fasta.gz", "/portal/Trire2/download/X.fasta.gz",
        "Wed Jan 01 00:00:00 PST 2020", 1⟩] ∧
    parseTimestamp "Wed Jan 01 00:00:00 PST 2020" ≠
      parseTimestamp "Tue Jan 01 00:00:00 PST 2019" ∧
    bestOf (annotate_gff "Trire2" none ignoreGffFilenames
        [⟨"X.fasta.gz", "/portal/Trire2/download/X.fasta.gz",
          "Wed Jan 01 00:00:00 PST 2020", 1⟩,
         ⟨"A.gff.gz", "/portal/Trire2/download/A.gff.gz",
          "Tue Jan 01 00:00:00 PST 2019", 2⟩]) ≠
      bestOf (annotate_gff "Trire2" none ignoreGffFilenames
        [⟨"A.gff.gz", "/portal/Trire2/download/A.gff.gz",
          "Tue Jan 01 00:00:00 PST 2019", 2⟩,
         ⟨"X.fasta.gz", "/portal/Trire2/download/X.fasta.gz",
          "Wed Jan 01 00:00:00 PST 2020", 1⟩]) :=
  ⟨List.Perm.swap _ _ _, by decide, by decide⟩

end MycoDL
